import Mathlib

/-!
Verification of the chalk bridge (`compiler/rustc_traits/src/chalk/mod.rs`):
the translation layer that encodes a rustc canonical goal for the chalk
solver and decodes the solver's answer back into a rustc query response.

The shallow embedding below follows the source file `chalk/mod.rs`.  The
helper components living in `chalk/lowering.rs` and `rustc_middle`
(PlaceholdersCollector, ParamsSubstitutor, RegionsSubstitutor,
CanonicalVarValues::make_identity, the per-value lower_into) are not part of
the provided sources; they are modelled from the specification, and each such
definition carries a doc comment starting with "Modelled from the spec:".
-/

namespace Chalk

/-- A universe index (rustc `ty::UniverseIndex`, chalk `UniverseIndex`),
represented by its `index()` / `counter` value.  The root universe is `0`. -/
abbrev UniverseIndex := Nat

/-- Kinds of canonical type variables (rustc `CanonicalTyVarKind`). -/
inductive CanonicalTyVarKind where
  | General (ui : UniverseIndex)
  | Int
  | Float
deriving DecidableEq

/-- Kinds of canonical variables (rustc `CanonicalVarKind`).  Payloads of the
kinds the bridge does not support are modelled opaquely as indices. -/
inductive CanonicalVarKind where
  | Ty (k : CanonicalTyVarKind)
  | PlaceholderTy (idx : Nat)
  | Region (ui : UniverseIndex)
  | PlaceholderRegion (ui : UniverseIndex)
  | Const (ui : UniverseIndex)
  | PlaceholderConst (idx : Nat)
deriving DecidableEq

/-- A region placeholder: a universe together with an anonymous bound-region
index (rustc `ty::Placeholder` with a `BrAnon` name). -/
structure RegionPlaceholder where
  univ : UniverseIndex
  anonIndex : Nat
deriving DecidableEq

/-- Region terms as far as the bridge distinguishes them: the two singleton
regions "static" and "empty", anonymous placeholders, and the remaining
shapes (bound variables, free variables, inference variables), which the
region substitution passes through unchanged. -/
inductive Region where
  | ReStatic
  | ReEmpty
  | RePlaceholder (p : RegionPlaceholder)
  | ReBoundVar (idx : Nat)
  | ReFreeVar (idx : Nat)
  | ReVar (idx : Nat)
deriving DecidableEq

/-- The goal term, abstracted to the structure the bridge inspects: region
leaves, free generic-parameter references, placeholder types, opaque atoms,
binary structural nodes and binders (quantifiers). -/
inductive GoalValue where
  | regionLeaf (r : Region)
  | param (idx : Nat)
  | placeholderTy (univ : UniverseIndex) (idx : Nat)
  | atom (id : Nat)
  | node (a : GoalValue) (b : GoalValue)
  | binder (body : GoalValue)
deriving DecidableEq

/-- A canonicalized value (rustc `Canonical`): recorded max universe, ordered
canonical variable list, and the value itself. -/
structure Canonical (α : Type) where
  max_universe : UniverseIndex
  vars : List CanonicalVarKind
  value : α
deriving DecidableEq

/-- The bridge's input type (rustc `ChalkCanonicalGoal`). -/
abbrev ChalkCanonicalGoal := Canonical GoalValue

/-- Modelled from the spec: the Placeholder Collector (`PlaceholdersCollector`
in `chalk/lowering.rs`, absent from the provided sources) "returns the
smallest integer N such that every anonymous-region index already present
is < N", traversing every sub-term, including under binders. -/
def nextAnonRegionPlaceholder : GoalValue → Nat
  | .regionLeaf (.RePlaceholder p) => p.anonIndex + 1
  | .regionLeaf _ => 0
  | .param _ => 0
  | .placeholderTy _ _ => 0
  | .atom _ => 0
  | .node a b => max (nextAnonRegionPlaceholder a) (nextAnonRegionPlaceholder b)
  | .binder body => nextAnonRegionPlaceholder body

/-- Modelled from the spec: the Placeholder Collector also records the least
upper bound of placeholder-type indices, used as the base for the Parameter
Substitutor.  The source spelling of the field is kept. -/
def next_ty_placehoder : GoalValue → Nat
  | .regionLeaf _ => 0
  | .param _ => 0
  | .placeholderTy _ i => i + 1
  | .atom _ => 0
  | .node a b => max (next_ty_placehoder a) (next_ty_placehoder b)
  | .binder body => next_ty_placehoder body

/-- All anonymous-region indices occurring in a goal term (the indices the
Collector must dominate). -/
def anonRegionIndices : GoalValue → List Nat
  | .regionLeaf (.RePlaceholder p) => [p.anonIndex]
  | .regionLeaf _ => []
  | .param _ => []
  | .placeholderTy _ _ => []
  | .atom _ => []
  | .node a b => anonRegionIndices a ++ anonRegionIndices b
  | .binder body => anonRegionIndices body

/-- All region leaves of a goal term, in order. -/
def regionLeaves : GoalValue → List Region
  | .regionLeaf r => [r]
  | .param _ => []
  | .placeholderTy _ _ => []
  | .atom _ => []
  | .node a b => regionLeaves a ++ regionLeaves b
  | .binder body => regionLeaves body

/-- The fresh placeholder substituted for the "static" singleton region
(`restatic_placeholder` in `chalk/mod.rs`): universe ROOT, anonymous index
equal to the Collector's bound. -/
def restatic_placeholder (g : ChalkCanonicalGoal) : Region :=
  .RePlaceholder { univ := 0, anonIndex := nextAnonRegionPlaceholder g.value }

/-- The fresh placeholder substituted for the "empty" singleton region
(`reempty_placeholder` in `chalk/mod.rs`): universe ROOT, anonymous index
equal to the Collector's bound plus one. -/
def reempty_placeholder (g : ChalkCanonicalGoal) : Region :=
  .RePlaceholder { univ := 0, anonIndex := nextAnonRegionPlaceholder g.value + 1 }

/-- Modelled from the spec: the Region Substitutor (`RegionsSubstitutor` in
`chalk/lowering.rs`, absent from the provided sources) "deterministically
maps the two fixed singleton regions to two caller-supplied reserved
placeholders; all other region terms (free variables, bound variables, other
placeholders) are copied unchanged". -/
def substRegion (restatic reempty : Region) : Region → Region
  | .ReStatic => restatic
  | .ReEmpty => reempty
  | r => r

/-- Structural map over the region leaves of a goal term. -/
def mapRegions (f : Region → Region) : GoalValue → GoalValue
  | .regionLeaf r => .regionLeaf (f r)
  | .param i => .param i
  | .placeholderTy u i => .placeholderTy u i
  | .atom i => .atom i
  | .node a b => .node (mapRegions f a) (mapRegions f b)
  | .binder body => .binder (mapRegions f body)

/-- The Region Substitutor applied to a whole goal term. -/
def substRegions (restatic reempty : Region) (t : GoalValue) : GoalValue :=
  mapRegions (substRegion restatic reempty) t

/-- Modelled from the spec: the Parameter Substitutor (`ParamsSubstitutor` in
`chalk/lowering.rs`, absent from the provided sources) "replaces each free
generic-parameter reference with a fresh placeholder type at a caller-chosen
base universe, assigning indices in first-seen order; returns the rewritten
goal plus a map placeholder-index → original parameter".  The state threads
the next fresh index and the accumulated map. -/
def substParamsAux : GoalValue → Nat → List (Nat × Nat) → GoalValue × Nat × List (Nat × Nat)
  | .param p, nxt, m =>
    match m.find? (fun q => q.2 == p) with
    | some q => (.placeholderTy 0 q.1, nxt, m)
    | none => (.placeholderTy 0 nxt, nxt + 1, m ++ [(nxt, p)])
  | .regionLeaf r, nxt, m => (.regionLeaf r, nxt, m)
  | .placeholderTy u i, nxt, m => (.placeholderTy u i, nxt, m)
  | .atom i, nxt, m => (.atom i, nxt, m)
  | .node a b, nxt, m =>
    let ra := substParamsAux a nxt m
    let rb := substParamsAux b ra.2.1 ra.2.2
    (.node ra.1 rb.1, rb.2.1, rb.2.2)
  | .binder body, nxt, m =>
    let rb := substParamsAux body nxt m
    (.binder rb.1, rb.2.1, rb.2.2)

/-- The Parameter Substitutor, started at the Collector's placeholder-type
base with an empty map. -/
def substParams (t : GoalValue) : GoalValue :=
  (substParamsAux t (next_ty_placehoder t) []).1

/-- The obligation after the two sequential structural rewrites of
`evaluate_goal`: parameters replaced by fresh placeholders, then the two
singleton regions replaced by the two reserved fresh placeholders.  The
variable list and the recorded max universe are untouched. -/
def prepareObligation (g : ChalkCanonicalGoal) : ChalkCanonicalGoal :=
  { g with
    value := substRegions (restatic_placeholder g) (reempty_placeholder g) (substParams g.value) }

/-- Chalk type-variable kinds (`chalk_ir::TyKind` at the variable level). -/
inductive ChalkTyKind where
  | General
  | Integer
  | Float
deriving DecidableEq

/-- Chalk variable kinds (`chalk_ir::VariableKind`). -/
inductive ChalkVariableKind where
  | Ty (k : ChalkTyKind)
  | Lifetime
deriving DecidableEq

/-- A chalk variable kind paired with its universe
(`chalk_ir::WithKind<UniverseIndex>`). -/
structure ChalkWithKind where
  kind : ChalkVariableKind
  univ : UniverseIndex
deriving DecidableEq

/-- The encoded request (`chalk_ir::UCanonical` of the lowered goal): binder
list, lowered value and universe count.  The lowering of the goal term itself
is an external leaf capability per the spec, modelled as the identity on the
modelled term. -/
structure UCanonicalGoal where
  binders : List ChalkWithKind
  value : GoalValue
  universes : Nat
deriving DecidableEq

/-- The per-variable encoding performed inside
`chalk_ir::CanonicalVarKinds::from_iter` in `evaluate_goal`: General type
variables keep their universe, Int and Float variables are placed at the root
universe, Region variables become lifetime variables at their universe, and
the four remaining kinds reach an explicit `unimplemented` arm, modelled as
`none`. -/
def lowerVarKind : CanonicalVarKind → Option ChalkWithKind
  | .PlaceholderTy _ => none
  | .PlaceholderRegion _ => none
  | .Ty (.General ui) => some { kind := .Ty .General, univ := ui }
  | .Ty .Int => some { kind := .Ty .Integer, univ := 0 }
  | .Ty .Float => some { kind := .Ty .Float, univ := 0 }
  | .Region ui => some { kind := .Lifetime, univ := ui }
  | .Const _ => none
  | .PlaceholderConst _ => none

/-- Whether a canonical variable kind is one the bridge supports (the kinds
whose encoding does not reach an `unimplemented` arm). -/
def supportedKind : CanonicalVarKind → Bool
  | .Ty _ => true
  | .Region _ => true
  | _ => false

/-- Encoding of the whole binder list, failing on the first unsupported
kind, as the eager consumption of the mapped iterator does in the source. -/
def lowerBinders : List CanonicalVarKind → Option (List ChalkWithKind)
  | [] => some []
  | v :: vs =>
    match lowerVarKind v with
    | none => none
    | some b =>
      match lowerBinders vs with
      | none => none
      | some bs => some (b :: bs)

/-- The Canonical Encoder of `evaluate_goal`: after the two rewrites, encode
the binder list, keep the (identity-lowered) value, and set
`universes = max_universe + 1` from the obligation's recorded max universe. -/
def encodeGoal (g : ChalkCanonicalGoal) : Option UCanonicalGoal :=
  let ob := prepareObligation g
  match lowerBinders ob.vars with
  | none => none
  | some bs => some { binders := bs, value := ob.value, universes := ob.max_universe + 1 }

/-- A solver-side value inside a returned substitution
(`chalk_ir::GenericArg`), opaque to the bridge. -/
abbrev ChalkGenericArg := Nat

/-- A chalk substitution (`chalk_ir::Substitution`): an ordered list of
solver values. -/
structure Substitution where
  args : List ChalkGenericArg
deriving DecidableEq

/-- A chalk canonicalized answer value (`chalk_ir::Canonical`). -/
structure ChalkCanonical (α : Type) where
  binders : List ChalkWithKind
  value : α
deriving DecidableEq

/-- A substitution together with region constraints
(`chalk_ir::ConstrainedSubst`); the constraints are opaque to the bridge,
which currently drops them. -/
structure ConstrainedSubst where
  subst : Substitution
  constraints : List Nat
deriving DecidableEq

/-- Solver guidance for an ambiguous answer (`chalk_solve::Guidance`). -/
inductive Guidance where
  | Definite (subst : ChalkCanonical Substitution)
  | Suggested (subst : ChalkCanonical Substitution)
  | Unknown
deriving DecidableEq

/-- A solver answer (`chalk_solve::Solution`). -/
inductive Solution where
  | Unique (subst : ChalkCanonical ConstrainedSubst)
  | Ambig (guidance : Guidance)
deriving DecidableEq

/-- A decoded value on the rustc side (`GenericArg`): either a bound variable
(produced by the identity construction) or the reverse-lowering of a solver
value. -/
inductive GenericArg where
  | Bound (idx : Nat)
  | Lowered (arg : ChalkGenericArg)
deriving DecidableEq

/-- Modelled from the spec: the element-wise reverse-lowering of a single
solver value (`lower_into` in `chalk/lowering.rs`, absent from the provided
sources) is an opaque, structure-preserving leaf capability; it is modelled
as an injective embedding. -/
def lowerGenericArg (a : ChalkGenericArg) : GenericArg :=
  .Lowered a

/-- The values assigned to the canonical variables
(rustc `CanonicalVarValues`). -/
structure CanonicalVarValues where
  var_values : List GenericArg
deriving DecidableEq

/-- Modelled from the spec: `CanonicalVarValues::make_identity`
(`rustc_middle`, absent from the provided sources) builds from a
substitution the identity substitution in which each of its entries is
replaced by the bound variable at that entry's own position — "each variable
maps to itself".  It is a method of the receiver substitution and sees only
the receiver's entries. -/
def CanonicalVarValues.make_identity (v : CanonicalVarValues) : CanonicalVarValues :=
  { var_values := (List.range v.var_values.length).map GenericArg.Bound }

/-- The certainty of a decoded answer (rustc `Certainty`). -/
inductive Certainty where
  | Proven
  | Ambiguous
deriving DecidableEq

/-- A decoded query response (rustc `QueryResponse` with unit payload). -/
structure QueryResponse where
  var_values : CanonicalVarValues
  region_constraints : List Nat
  certainty : Certainty
  value : Unit
deriving DecidableEq

/-- The `make_solution` closure of `evaluate_goal`: element-wise
reverse-lower the returned substitution in order, reset the max universe to
root, keep the obligation's variable list, leave the region constraints
empty and set certainty `Proven`. -/
def make_solution (vars : List CanonicalVarKind) (subst : Substitution) :
    Canonical QueryResponse :=
  { max_universe := 0
    vars := vars
    value :=
      { var_values := { var_values := subst.args.map lowerGenericArg }
        region_constraints := []
        certainty := .Proven
        value := () } }

/-- The outcome of one `evaluate_goal` call: a decoded response, the
distinguished `NoSolution` error, or a loud failure through an explicit
`unimplemented` arm. -/
inductive EvalOutcome where
  | ok (r : Canonical QueryResponse)
  | noSolution
  | unimplemented
deriving DecidableEq

/-- The decoding of the solver's answer in `evaluate_goal`: `Unique` and
`Ambig(Definite)` both go through `make_solution`; `Ambig(Suggested)` reaches
an `unimplemented` arm; `Ambig(Unknown)` returns `make_identity` of an empty
value list with certainty `Ambiguous`; no answer becomes `NoSolution`. -/
def decodeSolution (vars : List CanonicalVarKind) : Option Solution → EvalOutcome
  | none => .noSolution
  | some (.Unique cs) => .ok (make_solution vars cs.value.subst)
  | some (.Ambig (.Definite s)) => .ok (make_solution vars s.value)
  | some (.Ambig (.Suggested _)) => .unimplemented
  | some (.Ambig .Unknown) =>
    .ok
      { max_universe := 0
        vars := vars
        value :=
          { var_values := CanonicalVarValues.make_identity { var_values := [] }
            region_constraints := []
            certainty := .Ambiguous
            value := () } }

/-- The bridge's single inbound operation (`evaluate_goal` in
`chalk/mod.rs`).  The solver (instantiated per call in the source, together
with its read-only fact database) is modelled as a function from the encoded
request to an optional answer. -/
def evaluateGoal (solver : UCanonicalGoal → Option Solution) (g : ChalkCanonicalGoal) :
    EvalOutcome :=
  match encodeGoal g with
  | none => .unimplemented
  | some enc => decodeSolution (prepareObligation g).vars (solver enc)

/-- The recorded universe of a canonical variable (rustc
`CanonicalVarKind::universe`): General and Region variables carry theirs,
Int and Float variables live at the root universe. -/
def varUniverse : CanonicalVarKind → UniverseIndex
  | .Ty (.General ui) => ui
  | .Ty .Int => 0
  | .Ty .Float => 0
  | .PlaceholderTy _ => 0
  | .Region ui => ui
  | .PlaceholderRegion ui => ui
  | .Const ui => ui
  | .PlaceholderConst _ => 0

/-- The highest universe among a goal's canonical variables (0 for an empty
list). -/
def maxVarUniverse (vs : List CanonicalVarKind) : Nat :=
  vs.foldr (fun v m => max (varUniverse v) m) 0

/-- The specification's own description of the Unknown-guidance decoding,
stated from the spec's words for comparison with the code's behaviour: an
identity substitution of length N in which each of the N canonical variables
maps to itself, certainty Ambiguous, empty region constraints. -/
def specUnknownResponse (g : ChalkCanonicalGoal) : Canonical QueryResponse :=
  { max_universe := 0
    vars := g.vars
    value :=
      { var_values := { var_values := (List.range g.vars.length).map GenericArg.Bound }
        region_constraints := []
        certainty := .Ambiguous
        value := () } }

/-- A goal with no canonical variables. -/
def emptyGoal : ChalkCanonicalGoal :=
  { max_universe := 0, vars := [], value := .atom 0 }

/-- A goal with a single general type variable at the root universe. -/
def oneVarGoal : ChalkCanonicalGoal :=
  { max_universe := 0, vars := [.Ty (.General 0)], value := .atom 0 }

/-- A goal with a single general type variable at universe 2 and a matching
recorded max universe. -/
def uniGoal : ChalkCanonicalGoal :=
  { max_universe := 2, vars := [.Ty (.General 2)], value := .atom 0 }

/-- A goal whose variable list contains an unsupported (const) kind. -/
def badGoal : ChalkCanonicalGoal :=
  { max_universe := 0, vars := [.Const 0], value := .atom 0 }

/-- A goal whose value mentions the static and empty singleton regions, a
pre-existing anonymous region placeholder of index 3, and a region
inference variable. -/
def regionGoal : ChalkCanonicalGoal :=
  { max_universe := 0
    vars := []
    value := .node (.regionLeaf .ReStatic)
      (.node (.regionLeaf .ReEmpty)
        (.node (.regionLeaf (.RePlaceholder { univ := 0, anonIndex := 3 }))
          (.regionLeaf (.ReVar 5)))) }

/-- The encoded request for `emptyGoal`. -/
def emptyGoalEnc : UCanonicalGoal :=
  { binders := [], value := .atom 0, universes := 1 }

/-- The encoded request for `uniGoal`. -/
def uniGoalEnc : UCanonicalGoal :=
  { binders := [{ kind := .Ty .General, univ := 2 }], value := .atom 0, universes := 3 }

/-- A solver behaviour that always answers Ambiguous(Unknown). -/
def unknownSolver : UCanonicalGoal → Option Solution :=
  fun _ => some (.Ambig .Unknown)

/-- A solver behaviour that never finds a solution. -/
def noneSolver : UCanonicalGoal → Option Solution :=
  fun _ => none

/-- A solver behaviour that always answers Ambiguous(Definite([7])). -/
def definiteSolver : UCanonicalGoal → Option Solution :=
  fun _ => some (.Ambig (.Definite { binders := [], value := { args := [7] } }))

/-- An empty canonicalized solver substitution. -/
def sEmpty : ChalkCanonical Substitution :=
  { binders := [], value := { args := [] } }

/-- A solver behaviour that always answers Ambiguous(Suggested(empty)). -/
def suggestedSolver : UCanonicalGoal → Option Solution :=
  fun _ => some (.Ambig (.Suggested sEmpty))

/-- An empty constrained substitution, as a Unique answer's payload. -/
def csEmpty : ChalkCanonical ConstrainedSubst :=
  { binders := [], value := { subst := { args := [] }, constraints := [] } }

/-- A solver behaviour that always answers Unique(empty substitution). -/
def uniqueEmptySolver : UCanonicalGoal → Option Solution :=
  fun _ => some (.Unique csEmpty)

/-- The decoded response for an Unknown answer on a variable-free goal. -/
def unknownEmptyResult : Canonical QueryResponse :=
  { max_universe := 0
    vars := []
    value :=
      { var_values := { var_values := [] }
        region_constraints := []
        certainty := .Ambiguous
        value := () } }

theorem prepareObligation_vars (g : ChalkCanonicalGoal) :
    (prepareObligation g).vars = g.vars := rfl

theorem prepareObligation_max_universe (g : ChalkCanonicalGoal) :
    (prepareObligation g).max_universe = g.max_universe := rfl

theorem lowerVarKind_isSome_of_supported (v : CanonicalVarKind)
    (h : supportedKind v = true) : ∃ b, lowerVarKind v = some b := by
  cases v with
  | Ty k => cases k <;> exact ⟨_, rfl⟩
  | Region ui => exact ⟨_, rfl⟩
  | PlaceholderTy i => simp [supportedKind] at h
  | PlaceholderRegion ui => simp [supportedKind] at h
  | Const ui => simp [supportedKind] at h
  | PlaceholderConst i => simp [supportedKind] at h

theorem lowerVarKind_eq_none (v : CanonicalVarKind)
    (hbad : supportedKind v = false) : lowerVarKind v = none := by
  cases v with
  | Ty k => simp [supportedKind] at hbad
  | Region ui => simp [supportedKind] at hbad
  | PlaceholderTy i => rfl
  | PlaceholderRegion ui => rfl
  | Const ui => rfl
  | PlaceholderConst i => rfl

theorem lowerBinders_isSome (vs : List CanonicalVarKind)
    (h : vs.all supportedKind = true) : ∃ bs, lowerBinders vs = some bs := by
  induction vs with
  | nil => exact ⟨[], rfl⟩
  | cons v vs ih =>
    rw [List.all_cons, Bool.and_eq_true] at h
    obtain ⟨b, hb⟩ := lowerVarKind_isSome_of_supported v h.1
    obtain ⟨bs, hbs⟩ := ih h.2
    exact ⟨b :: bs, by simp [lowerBinders, hb, hbs]⟩

theorem lowerBinders_eq_none (vs : List CanonicalVarKind) (v : CanonicalVarKind)
    (hmem : v ∈ vs) (hbad : supportedKind v = false) : lowerBinders vs = none := by
  induction vs with
  | nil => cases hmem
  | cons w ws ih =>
    rcases List.mem_cons.mp hmem with h | h
    · subst h
      simp [lowerBinders, lowerVarKind_eq_none v hbad]
    · cases hw : lowerVarKind w <;> simp [lowerBinders, hw, ih h]

theorem encodeGoal_eq (g : ChalkCanonicalGoal) (h : g.vars.all supportedKind = true) :
    ∃ enc, encodeGoal g = some enc ∧ enc.universes = g.max_universe + 1 := by
  obtain ⟨bs, hbs⟩ := lowerBinders_isSome g.vars h
  refine ⟨{ binders := bs, value := (prepareObligation g).value
            universes := g.max_universe + 1 }, ?_, rfl⟩
  simp [encodeGoal, prepareObligation_vars, prepareObligation_max_universe, hbs]

theorem encodeGoal_universes (g : ChalkCanonicalGoal) (enc : UCanonicalGoal)
    (henc : encodeGoal g = some enc) : enc.universes = g.max_universe + 1 := by
  cases hlb : lowerBinders (prepareObligation g).vars with
  | none => simp [encodeGoal, hlb] at henc
  | some bs =>
    simp only [encodeGoal, hlb, Option.some.injEq] at henc
    rw [← henc]
    rfl

theorem evaluateGoal_eq_decode (solver : UCanonicalGoal → Option Solution)
    (g : ChalkCanonicalGoal) (enc : UCanonicalGoal)
    (henc : encodeGoal g = some enc) :
    evaluateGoal solver g = decodeSolution g.vars (solver enc) := by
  simp [evaluateGoal, henc, prepareObligation_vars]

theorem evaluateGoal_eq_unimplemented_of_bad (solver : UCanonicalGoal → Option Solution)
    (g : ChalkCanonicalGoal) (v : CanonicalVarKind)
    (hmem : v ∈ g.vars) (hbad : supportedKind v = false) :
    evaluateGoal solver g = EvalOutcome.unimplemented := by
  have hlb : lowerBinders g.vars = none := lowerBinders_eq_none g.vars v hmem hbad
  have henc : encodeGoal g = none := by
    simp [encodeGoal, prepareObligation_vars, hlb]
  simp [evaluateGoal, henc]

theorem anonRegionIndices_lt_next (t : GoalValue) :
    ∀ i ∈ anonRegionIndices t, i < nextAnonRegionPlaceholder t := by
  induction t with
  | regionLeaf r =>
    cases r <;> simp [anonRegionIndices, nextAnonRegionPlaceholder]
  | param i => simp [anonRegionIndices]
  | placeholderTy u i => simp [anonRegionIndices]
  | atom i => simp [anonRegionIndices]
  | node a b iha ihb =>
    intro i hi
    simp only [anonRegionIndices, List.mem_append] at hi
    simp only [nextAnonRegionPlaceholder]
    rcases hi with h | h
    · exact Nat.lt_of_lt_of_le (iha i h) (Nat.le_max_left _ _)
    · exact Nat.lt_of_lt_of_le (ihb i h) (Nat.le_max_right _ _)
  | binder body ih => exact ih

theorem regionLeaves_mapRegions (f : Region → Region) (t : GoalValue) :
    regionLeaves (mapRegions f t) = (regionLeaves t).map f := by
  induction t with
  | regionLeaf r => rfl
  | param i => rfl
  | placeholderTy u i => rfl
  | atom i => rfl
  | node a b iha ihb => simp [mapRegions, regionLeaves, iha, ihb]
  | binder body ih => simp [mapRegions, regionLeaves, ih]

/-- C1: the code does not give Ambiguous(Definite) answers the certainty the
claim describes.  At a one-variable goal whose solver answers
Ambiguous(Definite([7])), evaluate_goal does the same element-wise decoding
as for a Unique answer but returns certainty Proven, because make_solution
hardcodes Proven on the Definite branch exactly as on the Unique branch; the
claim (and the source's own comment) expect Ambiguous here. -/
theorem definite_guidance_decodes_to_proven :
    evaluateGoal definiteSolver oneVarGoal =
      EvalOutcome.ok
        { max_universe := 0
          vars := [CanonicalVarKind.Ty (CanonicalTyVarKind.General 0)]
          value :=
            { var_values := { var_values := [GenericArg.Lowered 7] }
              region_constraints := []
              certainty := Certainty.Proven
              value := () } } ∧
    Certainty.Proven ≠ Certainty.Ambiguous := by
  exact ⟨rfl, by decide⟩

/-- C2 counterexample: for the one-variable goal under an Unknown-guidance
answer, the decoded result is not the identity substitution of length one
described by the spec (specUnknownResponse); the decoded value list is
empty. -/
theorem unknown_guidance_not_identity_counterexample :
    evaluateGoal unknownSolver oneVarGoal ≠
      EvalOutcome.ok (specUnknownResponse oneVarGoal) := by
  decide

/-- C2 amended: for every goal with only supported variable kinds whose
solver answers Ambiguous(Unknown), evaluate_goal returns the goal's variable
list unchanged, max universe 0, empty region constraints, certainty
Ambiguous, and an empty substitution — make_identity applied to the empty
value list — regardless of the number of canonical variables. -/
theorem unknown_guidance_decodes_to_empty_subst
    (solver : UCanonicalGoal → Option Solution) (g : ChalkCanonicalGoal)
    (hsup : g.vars.all supportedKind = true)
    (hans : ∀ e, solver e = some (Solution.Ambig Guidance.Unknown)) :
    evaluateGoal solver g =
      EvalOutcome.ok
        { max_universe := 0
          vars := g.vars
          value :=
            { var_values := CanonicalVarValues.make_identity { var_values := [] }
              region_constraints := []
              certainty := Certainty.Ambiguous
              value := () } } := by
  obtain ⟨enc, henc, -⟩ := encodeGoal_eq g hsup
  rw [evaluateGoal_eq_decode solver g enc henc, hans enc]
  rfl

/-- Witness for the amended C2 theorem at the one-variable goal. -/
theorem unknown_guidance_decodes_to_empty_subst_witness :
    evaluateGoal unknownSolver oneVarGoal =
      EvalOutcome.ok
        { max_universe := 0
          vars := oneVarGoal.vars
          value :=
            { var_values := CanonicalVarValues.make_identity { var_values := [] }
              region_constraints := []
              certainty := Certainty.Ambiguous
              value := () } } :=
  unknown_guidance_decodes_to_empty_subst unknownSolver oneVarGoal (by decide)
    (fun _ => rfl)

/-- C3: under the data-model invariant that the goal's recorded max universe
equals the highest universe among its canonical variables, the encoded
request's universes field equals 1 + that maximum, and equals 1 when the
variable list is empty. -/
theorem encoded_universes_one_plus_max (g : ChalkCanonicalGoal) (enc : UCanonicalGoal)
    (hinv : g.max_universe = maxVarUniverse g.vars)
    (henc : encodeGoal g = some enc) :
    enc.universes = 1 + maxVarUniverse g.vars ∧ (g.vars = [] → enc.universes = 1) := by
  have huniv := encodeGoal_universes g enc henc
  constructor
  · rw [huniv, hinv]
    omega
  · intro hnil
    rw [huniv, hinv, hnil]
    rfl

/-- Witness for C3 at a universe-2 goal and at the variable-free goal. -/
theorem encoded_universes_one_plus_max_witness :
    uniGoalEnc.universes = 1 + maxVarUniverse uniGoal.vars ∧
    emptyGoalEnc.universes = 1 :=
  ⟨(encoded_universes_one_plus_max uniGoal uniGoalEnc rfl rfl).1,
   (encoded_universes_one_plus_max emptyGoal emptyGoalEnc rfl rfl).2 rfl⟩

/-- C4: a Unique answer decodes through make_solution: the substitution is
the element-wise, order-preserving lowering of the returned substitution
(of equal length, hence preserving the variable count when the solver
answers with one value per variable), certainty is Proven, the max universe
is reset to the root universe, the region constraints are empty and the
variable list is unchanged. -/
theorem unique_answer_decoding (solver : UCanonicalGoal → Option Solution)
    (g : ChalkCanonicalGoal) (cs : ChalkCanonical ConstrainedSubst)
    (hsup : g.vars.all supportedKind = true)
    (hans : ∀ e, solver e = some (Solution.Unique cs))
    (hlen : cs.value.subst.args.length = g.vars.length) :
    evaluateGoal solver g = EvalOutcome.ok (make_solution g.vars cs.value.subst) ∧
    (make_solution g.vars cs.value.subst).value.var_values.var_values =
      cs.value.subst.args.map lowerGenericArg ∧
    (make_solution g.vars cs.value.subst).value.certainty = Certainty.Proven ∧
    (make_solution g.vars cs.value.subst).max_universe = 0 ∧
    (make_solution g.vars cs.value.subst).value.region_constraints = [] ∧
    (make_solution g.vars cs.value.subst).vars = g.vars ∧
    (make_solution g.vars cs.value.subst).value.var_values.var_values.length =
      g.vars.length := by
  obtain ⟨enc, henc, -⟩ := encodeGoal_eq g hsup
  refine ⟨?_, rfl, rfl, rfl, rfl, rfl, ?_⟩
  · rw [evaluateGoal_eq_decode solver g enc henc, hans enc]
    rfl
  · simp [make_solution, hlen]

/-- Witness for C4: the 0-variable goal answered with Unique(empty
substitution) decodes to an empty variable list with certainty Proven. -/
theorem unique_answer_decoding_witness :
    evaluateGoal uniqueEmptySolver emptyGoal =
      EvalOutcome.ok (make_solution emptyGoal.vars csEmpty.value.subst) ∧
    (make_solution emptyGoal.vars csEmpty.value.subst).value.var_values.var_values =
      csEmpty.value.subst.args.map lowerGenericArg ∧
    (make_solution emptyGoal.vars csEmpty.value.subst).value.certainty =
      Certainty.Proven ∧
    (make_solution emptyGoal.vars csEmpty.value.subst).max_universe = 0 ∧
    (make_solution emptyGoal.vars csEmpty.value.subst).value.region_constraints = [] ∧
    (make_solution emptyGoal.vars csEmpty.value.subst).vars = emptyGoal.vars ∧
    (make_solution emptyGoal.vars csEmpty.value.subst).value.var_values.var_values.length =
      emptyGoal.vars.length :=
  unique_answer_decoding uniqueEmptySolver emptyGoal csEmpty (by decide)
    (fun _ => rfl) (by decide)

/-- C5: when the goal encodes (no unimplemented variable kind), evaluate_goal
surfaces the distinguished NoSolution outcome exactly when the solver
returns no solution: a missing solution is never turned into a fabricated
answer or a loud failure, and NoSolution arises under no other solver
answer. -/
theorem no_solution_iff_solver_none (solver : UCanonicalGoal → Option Solution)
    (g : ChalkCanonicalGoal) (enc : UCanonicalGoal)
    (henc : encodeGoal g = some enc) :
    evaluateGoal solver g = EvalOutcome.noSolution ↔ solver enc = none := by
  rw [evaluateGoal_eq_decode solver g enc henc]
  constructor
  · intro h
    cases hs : solver enc with
    | none => rfl
    | some s =>
      rw [hs] at h
      cases s with
      | Unique cs => simp [decodeSolution] at h
      | Ambig gu => cases gu <;> simp [decodeSolution] at h
  · intro h
    rw [h]
    rfl

/-- Witness for C5 at the variable-free goal with a solver finding no
solution. -/
theorem no_solution_iff_solver_none_witness :
    evaluateGoal noneSolver emptyGoal = EvalOutcome.noSolution ↔
      noneSolver emptyGoalEnc = none :=
  no_solution_iff_solver_none noneSolver emptyGoal emptyGoalEnc rfl

/-- C6: the explicit unimplemented arms fail loudly: an unsupported variable
kind (Placeholder-Ty, Placeholder-Region, Const, Placeholder-Const) makes
its per-variable encoding, and hence the whole call, reach the unimplemented
outcome, and a Suggested-guidance answer on an encodable goal does the same;
no degraded decoded result is produced in either case. -/
theorem unimplemented_kinds_and_suggested_fail_loudly
    (solver : UCanonicalGoal → Option Solution) (g : ChalkCanonicalGoal)
    (v : CanonicalVarKind) (s : ChalkCanonical Substitution) :
    (supportedKind v = false → lowerVarKind v = none) ∧
    (v ∈ g.vars → supportedKind v = false →
      evaluateGoal solver g = EvalOutcome.unimplemented) ∧
    (g.vars.all supportedKind = true →
      (∀ e, solver e = some (Solution.Ambig (Guidance.Suggested s))) →
      evaluateGoal solver g = EvalOutcome.unimplemented) := by
  refine ⟨lowerVarKind_eq_none v, ?_, ?_⟩
  · intro hmem hbad
    exact evaluateGoal_eq_unimplemented_of_bad solver g v hmem hbad
  · intro hsup hans
    obtain ⟨enc, henc, -⟩ := encodeGoal_eq g hsup
    rw [evaluateGoal_eq_decode solver g enc henc, hans enc]
    rfl

/-- Witness for C6: a const-kind variable aborts the encoding, and a
Suggested answer aborts the decoding. -/
theorem unimplemented_kinds_and_suggested_fail_loudly_witness :
    lowerVarKind (CanonicalVarKind.Const 0) = none ∧
    evaluateGoal suggestedSolver badGoal = EvalOutcome.unimplemented ∧
    evaluateGoal suggestedSolver oneVarGoal = EvalOutcome.unimplemented :=
  ⟨(unimplemented_kinds_and_suggested_fail_loudly suggestedSolver badGoal
      (CanonicalVarKind.Const 0) sEmpty).1 (by decide),
   (unimplemented_kinds_and_suggested_fail_loudly suggestedSolver badGoal
      (CanonicalVarKind.Const 0) sEmpty).2.1 (by decide) (by decide),
   (unimplemented_kinds_and_suggested_fail_loudly suggestedSolver oneVarGoal
      (CanonicalVarKind.Const 0) sEmpty).2.2 (by decide) (fun _ => rfl)⟩

/-- C7: the per-variable encoding maps a General type variable at universe
ui to a general solver type variable at ui, Int and Float type variables to
integer-kind and float-kind solver type variables at the root universe, and
a Region variable at universe ui to a lifetime variable at ui. -/
theorem encoder_variable_kind_mapping (ui : UniverseIndex) :
    lowerVarKind (CanonicalVarKind.Ty (CanonicalTyVarKind.General ui)) =
      some { kind := ChalkVariableKind.Ty ChalkTyKind.General, univ := ui } ∧
    lowerVarKind (CanonicalVarKind.Ty CanonicalTyVarKind.Int) =
      some { kind := ChalkVariableKind.Ty ChalkTyKind.Integer, univ := 0 } ∧
    lowerVarKind (CanonicalVarKind.Ty CanonicalTyVarKind.Float) =
      some { kind := ChalkVariableKind.Ty ChalkTyKind.Float, univ := 0 } ∧
    lowerVarKind (CanonicalVarKind.Region ui) =
      some { kind := ChalkVariableKind.Lifetime, univ := ui } :=
  ⟨rfl, rfl, rfl, rfl⟩

/-- Witness for C7 at universe 2. -/
theorem encoder_variable_kind_mapping_witness :
    lowerVarKind (CanonicalVarKind.Ty (CanonicalTyVarKind.General 2)) =
      some { kind := ChalkVariableKind.Ty ChalkTyKind.General, univ := 2 } ∧
    lowerVarKind (CanonicalVarKind.Ty CanonicalTyVarKind.Int) =
      some { kind := ChalkVariableKind.Ty ChalkTyKind.Integer, univ := 0 } ∧
    lowerVarKind (CanonicalVarKind.Ty CanonicalTyVarKind.Float) =
      some { kind := ChalkVariableKind.Ty ChalkTyKind.Float, univ := 0 } ∧
    lowerVarKind (CanonicalVarKind.Region 2) =
      some { kind := ChalkVariableKind.Lifetime, univ := 2 } :=
  encoder_variable_kind_mapping 2

/-- C8: the Collector's bound strictly dominates every pre-existing
anonymous-region index; the two fresh reserved placeholders are allocated at
the bound and the bound plus one, so neither collides with a pre-existing
index; and the Region Substitution replaces exactly the static and empty
singleton regions with these two placeholders, every other region term
passing through unchanged, leaf by leaf over the whole goal. -/
theorem collector_bound_fresh_and_region_subst (g : ChalkCanonicalGoal) (r : Region) :
    (∀ i ∈ anonRegionIndices g.value, i < nextAnonRegionPlaceholder g.value) ∧
    decide (nextAnonRegionPlaceholder g.value ∈ anonRegionIndices g.value) = false ∧
    decide (nextAnonRegionPlaceholder g.value + 1 ∈ anonRegionIndices g.value) = false ∧
    restatic_placeholder g =
      Region.RePlaceholder { univ := 0, anonIndex := nextAnonRegionPlaceholder g.value } ∧
    reempty_placeholder g =
      Region.RePlaceholder { univ := 0, anonIndex := nextAnonRegionPlaceholder g.value + 1 } ∧
    substRegion (restatic_placeholder g) (reempty_placeholder g) Region.ReStatic =
      restatic_placeholder g ∧
    substRegion (restatic_placeholder g) (reempty_placeholder g) Region.ReEmpty =
      reempty_placeholder g ∧
    (r ≠ Region.ReStatic → r ≠ Region.ReEmpty →
      substRegion (restatic_placeholder g) (reempty_placeholder g) r = r) ∧
    regionLeaves (substRegions (restatic_placeholder g) (reempty_placeholder g) g.value) =
      (regionLeaves g.value).map
        (substRegion (restatic_placeholder g) (reempty_placeholder g)) := by
  refine ⟨anonRegionIndices_lt_next g.value, ?_, ?_, rfl, rfl, rfl, rfl, ?_,
    regionLeaves_mapRegions _ _⟩
  · exact decide_eq_false fun h =>
      absurd (anonRegionIndices_lt_next g.value _ h) (lt_irrefl _)
  · exact decide_eq_false fun h => by
      have := anonRegionIndices_lt_next g.value _ h
      omega
  · intro h1 h2
    cases r with
    | ReStatic => exact absurd rfl h1
    | ReEmpty => exact absurd rfl h2
    | RePlaceholder p => rfl
    | ReBoundVar i => rfl
    | ReFreeVar i => rfl
    | ReVar i => rfl

/-- Witness for C8 at a goal holding the two singleton regions, a
pre-existing anonymous placeholder of index 3 and a region variable. -/
theorem collector_bound_fresh_and_region_subst_witness :
    3 < nextAnonRegionPlaceholder regionGoal.value ∧
    decide (nextAnonRegionPlaceholder regionGoal.value ∈
      anonRegionIndices regionGoal.value) = false ∧
    substRegion (restatic_placeholder regionGoal) (reempty_placeholder regionGoal)
      (Region.ReVar 5) = Region.ReVar 5 ∧
    regionLeaves (substRegions (restatic_placeholder regionGoal)
        (reempty_placeholder regionGoal) regionGoal.value) =
      (regionLeaves regionGoal.value).map
        (substRegion (restatic_placeholder regionGoal) (reempty_placeholder regionGoal)) :=
  ⟨(collector_bound_fresh_and_region_subst regionGoal (Region.ReVar 5)).1 3 (by decide),
   (collector_bound_fresh_and_region_subst regionGoal (Region.ReVar 5)).2.1,
   (collector_bound_fresh_and_region_subst regionGoal
      (Region.ReVar 5)).2.2.2.2.2.2.2.1 (by decide) (by decide),
   (collector_bound_fresh_and_region_subst regionGoal (Region.ReVar 5)).2.2.2.2.2.2.2.2⟩

/-- C9: every successful outcome of evaluate_goal, on all three implemented
decode branches, carries the input goal's canonical variable list unchanged,
a max universe equal to the root universe 0, and empty region
constraints. -/
theorem success_invariants (solver : UCanonicalGoal → Option Solution)
    (g : ChalkCanonicalGoal) (r : Canonical QueryResponse)
    (h : evaluateGoal solver g = EvalOutcome.ok r) :
    r.vars = g.vars ∧ r.max_universe = 0 ∧ r.value.region_constraints = [] := by
  cases henc : encodeGoal g with
  | none =>
    simp [evaluateGoal, henc] at h
  | some enc =>
    rw [evaluateGoal_eq_decode solver g enc henc] at h
    cases hs : solver enc with
    | none =>
      rw [hs] at h
      simp [decodeSolution] at h
    | some s =>
      rw [hs] at h
      cases s with
      | Unique cs =>
        simp only [decodeSolution] at h
        injection h with h2
        subst h2
        exact ⟨rfl, rfl, rfl⟩
      | Ambig gu =>
        cases gu with
        | Definite s2 =>
          simp only [decodeSolution] at h
          injection h with h2
          subst h2
          exact ⟨rfl, rfl, rfl⟩
        | Suggested s2 => simp [decodeSolution] at h
        | Unknown =>
          simp only [decodeSolution] at h
          injection h with h2
          subst h2
          exact ⟨rfl, rfl, rfl⟩

/-- Witness for C9 on the Unknown branch at the variable-free goal. -/
theorem success_invariants_witness :
    unknownEmptyResult.vars = emptyGoal.vars ∧
    unknownEmptyResult.max_universe = 0 ∧
    unknownEmptyResult.value.region_constraints = [] :=
  success_invariants unknownSolver emptyGoal unknownEmptyResult (by decide)

/-- C10: evaluate_goal is deterministic: two invocations with identical
input goals against the same solver behaviour (solver plus its read-only
fact database, modelled together as one function) produce identical encoded
requests and identical decoded outcomes. -/
theorem evaluate_goal_deterministic (s1 s2 : UCanonicalGoal → Option Solution)
    (g1 g2 : ChalkCanonicalGoal) (hg : g1 = g2) (hs : ∀ e, s1 e = s2 e) :
    encodeGoal g1 = encodeGoal g2 ∧ evaluateGoal s1 g1 = evaluateGoal s2 g2 := by
  subst hg
  have hfun : s1 = s2 := funext hs
  subst hfun
  exact ⟨rfl, rfl⟩

/-- Witness for C10 at the one-variable goal under the Unknown solver. -/
theorem evaluate_goal_deterministic_witness :
    encodeGoal oneVarGoal = encodeGoal oneVarGoal ∧
    evaluateGoal unknownSolver oneVarGoal = evaluateGoal unknownSolver oneVarGoal :=
  evaluate_goal_deterministic unknownSolver unknownSolver oneVarGoal oneVarGoal rfl
    (fun _ => rfl)

end Chalk
